import Mathlib

/-!
Verification of the olympus collector harness (src/olympus/base.py):
index naming, record normalization, bulk-push outcome classification and
accounting, dry-run push, and the collector registry.

Shallow embedding conventions:
- A Python dict whose values the code reads as strings is a `List (String × String)`
  association list in insertion order (Python dicts preserve insertion order;
  a new key is appended at the end).
- A bulk-response item is a dict from operation kind ("index"/"update"/"delete")
  to a sub-dict; the code only reads integer-valued fields (status codes) from
  the sub-dict, so the sub-dict is a `List (String × Int)`.
- `strftime` is the C library formatter; it is passed in as an opaque function
  argument `String → Nat → String` (pattern, timestamp).
- The elasticsearch helper `streaming_bulk` is external library code; its
  chunking behaviour (batches of at most `chunk_size`, in production order,
  one request per batch, per-record outcomes streamed back in order) is
  modelled from the spec.
-/

namespace Olympus

/-- A produced record: a Python dict with string fields, in insertion order. -/
abbrev Record := List (String × String)

/-- The per-operation sub-dict of a bulk response item; only integer-valued
fields (status codes) are ever read by the code. -/
abbrev OpResult := List (String × Int)

/-- One per-record bulk response item: operation kind → sub-dict. -/
abbrev Item := List (String × OpResult)

/-- Python `d.get(k, default).get(k2)` support: first binding of `k`, if any. -/
def lookupField (r : Record) (k : String) : Option String :=
  (r.find? (fun p => p.1 == k)).map (fun p => p.2)

/-- Python `k in d` for records. -/
def hasKey (r : Record) (k : String) : Bool :=
  (r.find? (fun p => p.1 == k)).isSome

/-- Python `item.get(k, {})` on a bulk response item. -/
def getOp (item : Item) (k : String) : OpResult :=
  ((item.find? (fun p => p.1 == k)).map (fun p => p.2)).getD []

/-- Python `k in item` on a bulk response item. -/
def hasOp (item : Item) (k : String) : Bool :=
  (item.find? (fun p => p.1 == k)).isSome

/-- Python `subdict.get(k)` on an operation sub-dict. -/
def getField (d : OpResult) (k : String) : Option Int :=
  (d.find? (fun p => p.1 == k)).map (fun p => p.2)

/-- The per-collector configuration attributes of `OlympusCollector`
(class attributes plus the class identity used by `name()` and the registry). -/
structure CollectorConfig where
  module : String
  className : String
  index_name : Option String
  index_date_pattern : Option String
  chunk_size : Nat
  alias_suffix : String
deriving Repr, DecidableEq

/-- Python `s.split('.')[0]`: the characters before the first dot. -/
def firstModuleComponent (s : String) : String :=
  String.mk (s.data.takeWhile (fun c => c != '.'))

/-- Python `s.lower()`, as a character-wise map (ASCII lowercasing, which
covers the identifier-like strings the code lowercases). -/
def lowerString (s : String) : String :=
  String.mk (s.data.map Char.toLower)

/-- `OlympusCollector.name()`: `f"{cls.__module__.split('.')[0]}.{cls.__name__}"`. -/
def name (cfg : CollectorConfig) : String :=
  firstModuleComponent cfg.module ++ "." ++ cfg.className

/-- `OlympusCollector.__get_raw_index_name()`: `self.index_name or self.name().lower()`.
Python `or` falls through on a falsy value, so an empty-string override is
treated like `None`. -/
def get_raw_index_name (cfg : CollectorConfig) : String :=
  match cfg.index_name with
  | none => lowerString (name cfg)
  | some s => if s = "" then lowerString (name cfg) else s

/-- `OlympusCollector.get_index_name()`: the raw name, suffixed with
`-" + timestamp.strftime(pattern)` when a date pattern is configured
(`is None` check, so an empty-string pattern still gets a suffix). -/
def get_index_name (strftime : String → Nat → String) (cfg : CollectorConfig)
    (ts : Nat) : String :=
  match cfg.index_date_pattern with
  | none => get_raw_index_name cfg
  | some p => get_raw_index_name cfg ++ "-" ++ strftime p ts

/-- One step of `OlympusCollector.__collect()` normalization: default
`_type` to "status" and `_index` to the computed index name when absent.
Python dict assignment of a fresh key appends it in insertion order. -/
def normalize1 (idx : String) (r : Record) : Record :=
  let r1 := if hasKey r "_type" then r else r ++ [("_type", "status")]
  if hasKey r1 "_index" then r1 else r1 ++ [("_index", idx)]

/-- `OlympusCollector.__collect()`: the normalizer over the produced stream. -/
def collectNorm (idx : String) (rs : List Record) : List Record :=
  rs.map (normalize1 idx)

/-- The outcome-classification rule inlined in `push` (lines 101-106):
`delete_status = item.get("delete", {}).get('status')`,
`update_status = item.get("update", {}).get('update')` (sic: the source reads
the key `'update'`, not `'status'`), and a raw failure is overridden to
success when either equals 404. -/
def classify (ok : Bool) (item : Item) : Bool :=
  let deleteStatus := getField (getOp item "delete") "status"
  let updateStatus := getField (getOp item "update") "update"
  if !ok ∧ (deleteStatus = some 404 ∨ updateStatus = some 404) then true else ok

/-- The accumulation loop of `push` (lines 96-113) over the streamed
`(ok, item)` outcomes: running success count, failure list in stream order,
and the sequence of observer (`stats_cb`) invocations in call order. -/
def pushLoopAux (s : Nat) (fails : List Item) (obs : List (Bool × Item)) :
    List (Bool × Item) → Nat × List Item × List (Bool × Item)
  | [] => (s, fails, obs)
  | (ok, item) :: rest =>
      let effOk := classify ok item
      pushLoopAux (if effOk then s + 1 else s)
        (if effOk then fails else fails ++ [item])
        (obs ++ [(effOk, item)]) rest

/-- The whole outcome-processing phase of `push`. -/
def pushLoop (outcomes : List (Bool × Item)) : Nat × List Item × List (Bool × Item) :=
  pushLoopAux 0 [] [] outcomes

/-- Modelled from the spec: the chunking of `elasticsearch.helpers.streaming_bulk`
(external library code, not in this repository): "records are grouped into
batches of at most `chunkSize` ..., each batch submitted as one request". -/
def chunks (n : Nat) : List Record → List (List Record)
  | [] => []
  | x :: xs => (x :: xs.take (n - 1)) :: chunks n (xs.drop (n - 1))
termination_by l => l.length
decreasing_by
  simp only [List.length_drop, List.length_cons]
  omega

/-- An operation issued against the remote store. -/
inductive StoreOp where
  | createIndex (idx : String)
  | deleteAlias (alias_name : String)
  | putAlias (idx : String) (alias_name : String)
  | bulk (batch : List Record)
deriving Repr, DecidableEq

/-- Whether a store operation is a bulk-write request. -/
def isBulk : StoreOp → Bool
  | StoreOp.bulk _ => true
  | _ => false

/-- `OlympusCollector.create_index()` as the trace of store operations it
issues: create the index (tolerating "already exists"), and when both a date
pattern and an alias suffix are truthy, delete then re-bind the latest alias. -/
def create_index_ops (strftime : String → Nat → String) (cfg : CollectorConfig)
    (ts : Nat) : List StoreOp :=
  [StoreOp.createIndex (get_index_name strftime cfg ts)] ++
    (if (match cfg.index_date_pattern with | none => false | some p => p != "")
        && cfg.alias_suffix != "" then
      let a := get_raw_index_name cfg ++ cfg.alias_suffix
      [StoreOp.deleteAlias a, StoreOp.putAlias (get_index_name strftime cfg ts) a]
    else [])

/-- `OlympusCollector.push()` in live mode, with the store abstracted as a
function from a submitted batch to its per-record outcomes. Returns the trace
of store operations issued (provisioning, then one bulk request per batch, as
modelled from the spec for `streaming_bulk`) together with the
`(success, fails)` result and the observer-call sequence. -/
def push (strftime : String → Nat → String) (cfg : CollectorConfig) (ts : Nat)
    (store : List Record → List (Bool × Item)) (produced : List Record) :
    List StoreOp × Nat × List Item × List (Bool × Item) :=
  let records := collectNorm (get_index_name strftime cfg ts) produced
  let batches := chunks cfg.chunk_size records
  let ops := create_index_ops strftime cfg ts ++ batches.map StoreOp.bulk
  let outcomes := (batches.map store).flatten
  (ops, pushLoop outcomes)

/-- A store that accepts every submitted record, reporting outcome items
produced by `itemOf`. -/
def acceptAll (itemOf : Record → Item) (batch : List Record) : List (Bool × Item) :=
  batch.map (fun r => (true, itemOf r))

/-- The loop of `OlympusCollector.fake_push()`: count every collected item as
a success and call the observer with `(True, item)`; never touch the store. -/
def fakePushAux (s : Nat) (obs : List (Bool × Record)) :
    List Record → Nat × List (Bool × Record)
  | [] => (s, obs)
  | r :: rest => fakePushAux (s + 1) (obs ++ [(true, r)]) rest

/-- `OlympusCollector.fake_push()`: dry-run push over the collected
(normalized) stream. Returns the (empty) store-operation trace, the
`(success, fails)` result and the observer-call sequence. -/
def fake_push (strftime : String → Nat → String) (cfg : CollectorConfig)
    (ts : Nat) (produced : List Record) :
    List StoreOp × Nat × List Item × List (Bool × Record) :=
  let records := collectNorm (get_index_name strftime cfg ts) produced
  let (s, obs) := fakePushAux 0 [] records
  ([], s, [], obs)

/-- The registry entry appended by `OlympusCollector.__init_subclass__`:
`(cls.__module__.split('.')[0], cls.name(), cls)`. -/
def registryEntry (cfg : CollectorConfig) : String × String × CollectorConfig :=
  (firstModuleComponent cfg.module, name cfg, cfg)

/-- `__init_subclass__`'s effect on the module-level `_collectors` list. -/
def register (st : List (String × String × CollectorConfig))
    (cfg : CollectorConfig) : List (String × String × CollectorConfig) :=
  st ++ [registryEntry cfg]

/-- `collectors()`: returns the module-level registration list. -/
def collectors (st : List (String × String × CollectorConfig)) :
    List (String × String × CollectorConfig) :=
  st

/-! ## Shared lemmas -/

theorem pushLoopAux_spec (outs : List (Bool × Item)) : ∀ (s : Nat) (fails : List Item)
    (obs : List (Bool × Item)),
    pushLoopAux s fails obs outs =
      (s + (outs.filter (fun p => classify p.1 p.2)).length,
       fails ++ (outs.filter (fun p => !(classify p.1 p.2))).map (fun p => p.2),
       obs ++ outs.map (fun p => (classify p.1 p.2, p.2))) := by
  induction outs with
  | nil => intro s fails obs; simp [pushLoopAux]
  | cons hd tl ih =>
    intro s fails obs
    obtain ⟨ok, item⟩ := hd
    by_cases h : classify ok item
    · simp [pushLoopAux, h, ih, List.filter_cons]
      omega
    · simp only [Bool.not_eq_true] at h
      simp [pushLoopAux, h, ih, List.filter_cons]

theorem pushLoop_spec (outs : List (Bool × Item)) :
    pushLoop outs =
      ((outs.filter (fun p => classify p.1 p.2)).length,
       (outs.filter (fun p => !(classify p.1 p.2))).map (fun p => p.2),
       outs.map (fun p => (classify p.1 p.2, p.2))) := by
  simp [pushLoop, pushLoopAux_spec]

theorem classify_of_ok (item : Item) : classify true item = true := by
  simp [classify]

theorem classify_of_delete404 (R : Item) (h : getField (getOp R "delete") "status" = some 404) :
    classify false R = true := by
  simp [classify, h]

theorem classify_of_plain (R : Item) (ok : Bool)
    (h1 : getField (getOp R "delete") "status" ≠ some 404)
    (h2 : getField (getOp R "update") "update" ≠ some 404) :
    classify ok R = ok := by
  simp [classify, h1, h2]

theorem getOp_of_not_hasOp (item : Item) (k : String) (h : hasOp item k = false) :
    getOp item k = [] := by
  unfold hasOp at h
  unfold getOp
  cases hfind : item.find? (fun p => p.1 == k) with
  | none => rfl
  | some v => rw [hfind] at h; simp at h

theorem string_append_cancel (s t u : String) (h : s ++ t = s ++ u) : t = u := by
  have hd : (s ++ t).data = (s ++ u).data := by rw [h]
  simp only [String.data_append] at hd
  have h2 := List.append_cancel_left hd
  cases t; cases u; exact congrArg String.mk h2

theorem fakePushAux_spec (rs : List Record) : ∀ (s : Nat) (obs : List (Bool × Record)),
    fakePushAux s obs rs = (s + rs.length, obs ++ rs.map (fun r => (true, r))) := by
  induction rs with
  | nil => intro s obs; simp [fakePushAux]
  | cons r rest ih =>
    intro s obs
    simp [fakePushAux, ih]
    omega

theorem create_index_ops_no_bulk (strftime : String → Nat → String)
    (cfg : CollectorConfig) (ts : Nat) :
    (create_index_ops strftime cfg ts).filter isBulk = [] := by
  simp only [create_index_ops]
  split <;> simp [isBulk]

theorem lookupField_append_of_ne (r : Record) (a b k : String) (h : k ≠ a) :
    lookupField (r ++ [(a, b)]) k = lookupField r k := by
  induction r with
  | nil =>
    have hak : (a == k) = false := by simp [Ne.symm h]
    simp [lookupField, List.find?, hak]
  | cons hd tl ih =>
    by_cases hk : hd.1 == k
    · simp [lookupField, List.find?_cons, hk]
    · simp only [List.cons_append, lookupField, List.find?_cons, hk, Bool.false_eq_true,
        if_false] at ih ⊢
      exact ih

theorem lookupField_append_self (r : Record) (a b : String) (h : hasKey r a = false) :
    lookupField (r ++ [(a, b)]) a = some b := by
  induction r with
  | nil => simp [lookupField, List.find?]
  | cons hd tl ih =>
    simp only [hasKey, List.find?_cons] at h
    by_cases hk : hd.1 == a
    · rw [hk] at h; simp at h
    · simp only [hk, Bool.false_eq_true, if_false] at h
      simp only [List.cons_append, lookupField, List.find?_cons, hk, Bool.false_eq_true,
        if_false]
      exact ih h

theorem hasKey_append (r : Record) (a b k : String) :
    hasKey (r ++ [(a, b)]) k = (hasKey r k || a == k) := by
  induction r with
  | nil =>
    cases hak : a == k <;> simp [hasKey, List.find?, hak]
  | cons hd tl ih =>
    by_cases hk : hd.1 == k
    · simp [hasKey, List.find?_cons, hk]
    · simp only [List.cons_append, hasKey, List.find?_cons, hk, Bool.false_eq_true,
        if_false] at ih ⊢
      exact ih

/-! ## Claim theorems -/

/-- C1: the claim says a failed update sub-operation with status 404 is
reclassified as success. The code instead reads `item.get("update", {}).get('update')`
(the key `'update'`, not `'status'`), so a failed update item carrying its
status under the `status` field is NOT reclassified: evaluated at the failing
input, the classifier leaves it a failure, push counts no success for it, the
observer is called with `false`, and the item lands in the failure list —
contradicting the source's own comment "ignore not_found on delete and update". -/
theorem update404_remains_failure :
    classify false [("update", [("status", (404 : Int))])] = false ∧
    pushLoop [(false, [("update", [("status", (404 : Int))])])] =
      (0, [[("update", [("status", (404 : Int))])]],
        [(false, [("update", [("status", (404 : Int))])])]) :=
  ⟨rfl, rfl⟩

/-- C2: a bulk outcome item whose raw ok flag is false but whose delete
sub-operation reports status 404 is reclassified as success: wherever it
occurs in the outcome stream, the observer receives `true` for it, the
success count gains one over the surrounding stream's counts, and the
failure list is exactly the surrounding stream's failures (the item absent). -/
theorem delete404_reported_ok (pre post : List (Bool × Item)) (R : Item)
    (h : getField (getOp R "delete") "status" = some 404) :
    classify false R = true ∧
    (pushLoop (pre ++ (false, R) :: post)).1 = (pushLoop pre).1 + 1 + (pushLoop post).1 ∧
    (pushLoop (pre ++ (false, R) :: post)).2.1 = (pushLoop pre).2.1 ++ (pushLoop post).2.1 ∧
    (pushLoop (pre ++ (false, R) :: post)).2.2 =
      (pushLoop pre).2.2 ++ (true, R) :: (pushLoop post).2.2 := by
  have hc : classify false R = true := classify_of_delete404 R h
  refine ⟨hc, ?_, ?_, ?_⟩ <;>
    simp [pushLoop_spec, List.filter_append, List.filter_cons, hc, List.map_append]
  omega

/-- C2 witness at a concrete delete-404 outcome stream. -/
theorem delete404_reported_ok_witness :
    classify false [("delete", [("status", (404 : Int))])] = true ∧
    (pushLoop ([] ++ (false, [("delete", [("status", (404 : Int))])]) :: [])).1 =
      (pushLoop ([] : List (Bool × Item))).1 + 1 +
        (pushLoop ([] : List (Bool × Item))).1 ∧
    (pushLoop ([] ++ (false, [("delete", [("status", (404 : Int))])]) :: [])).2.1 =
      (pushLoop ([] : List (Bool × Item))).2.1 ++
        (pushLoop ([] : List (Bool × Item))).2.1 ∧
    (pushLoop ([] ++ (false, [("delete", [("status", (404 : Int))])]) :: [])).2.2 =
      (pushLoop ([] : List (Bool × Item))).2.2 ++
        (true, [("delete", [("status", (404 : Int))])]) ::
          (pushLoop ([] : List (Bool × Item))).2.2 :=
  delete404_reported_ok [] [] [("delete", [("status", (404 : Int))])] (by decide)

/-- C7: a bulk outcome item whose raw ok flag is false and whose only
sub-operation is an index operation with status 409 is a true failure:
wherever it occurs in the outcome stream, it is appended to the failure list
in stream order, the success count gains nothing from it, and the observer
receives `false` for it. -/
theorem index409_reported_failure (pre post : List (Bool × Item)) (R : Item)
    (hdel : hasOp R "delete" = false) (hupd : hasOp R "update" = false)
    (_hidx : getField (getOp R "index") "status" = some 409) :
    classify false R = false ∧
    (pushLoop (pre ++ (false, R) :: post)).1 = (pushLoop pre).1 + (pushLoop post).1 ∧
    (pushLoop (pre ++ (false, R) :: post)).2.1 =
      (pushLoop pre).2.1 ++ R :: (pushLoop post).2.1 ∧
    (pushLoop (pre ++ (false, R) :: post)).2.2 =
      (pushLoop pre).2.2 ++ (false, R) :: (pushLoop post).2.2 := by
  have h1 : getOp R "delete" = [] := getOp_of_not_hasOp R "delete" hdel
  have h2 : getOp R "update" = [] := getOp_of_not_hasOp R "update" hupd
  have hc : classify false R = false := by
    apply classify_of_plain <;> simp [h1, h2, getField, List.find?]
  refine ⟨hc, ?_, ?_, ?_⟩ <;>
    simp [pushLoop_spec, List.filter_append, List.filter_cons, hc, List.map_append]

/-- C7 witness at a concrete index-409 outcome stream. -/
theorem index409_reported_failure_witness :
    classify false [("index", [("status", (409 : Int))])] = false ∧
    (pushLoop ([] ++ (false, [("index", [("status", (409 : Int))])]) :: [])).1 =
      (pushLoop ([] : List (Bool × Item))).1 +
        (pushLoop ([] : List (Bool × Item))).1 ∧
    (pushLoop ([] ++ (false, [("index", [("status", (409 : Int))])]) :: [])).2.1 =
      (pushLoop ([] : List (Bool × Item))).2.1 ++
        [("index", [("status", (409 : Int))])] ::
          (pushLoop ([] : List (Bool × Item))).2.1 ∧
    (pushLoop ([] ++ (false, [("index", [("status", (409 : Int))])]) :: [])).2.2 =
      (pushLoop ([] : List (Bool × Item))).2.2 ++
        (false, [("index", [("status", (409 : Int))])]) ::
          (pushLoop ([] : List (Bool × Item))).2.2 :=
  index409_reported_failure [] [] [("index", [("status", (409 : Int))])]
    (by decide) (by decide) (by decide)

/-- C9: for every outcome stream of length N processed by push's loop, the
returned pair partitions the outcomes exactly — successCount plus the number
of failures equals N, the success count is exactly the number of outcomes
classified ok, the failure list is exactly the non-ok outcomes' items in
stream order, and the observer is invoked exactly once per item, in order,
with the effective ok value used for that item's tally. -/
theorem push_partitions_outcomes (outs : List (Bool × Item)) :
    (pushLoop outs).1 + (pushLoop outs).2.1.length = outs.length ∧
    (pushLoop outs).1 = (outs.filter (fun p => classify p.1 p.2)).length ∧
    (pushLoop outs).2.1 =
      (outs.filter (fun p => !(classify p.1 p.2))).map (fun p => p.2) ∧
    (pushLoop outs).2.2 = outs.map (fun p => (classify p.1 p.2, p.2)) := by
  rw [pushLoop_spec]
  refine ⟨?_, rfl, rfl, rfl⟩
  simp only [List.length_map]
  exact (@List.length_eq_length_filter_add _ outs (fun p => classify p.1 p.2)).symm

/-- C3: a collector with chunk size 2 whose producer yields exactly 5 records,
pushed live against a store that accepts every item, submits exactly 3 bulk
batches of sizes 2, 2 and 1 holding the normalized records in production
order, and the push returns success count 5 with an empty failure list. -/
theorem five_records_three_batches (strftime : String → Nat → String)
    (cfg : CollectorConfig) (ts : Nat) (itemOf : Record → Item)
    (r1 r2 r3 r4 r5 : Record) (h : cfg.chunk_size = 2) :
    (push strftime cfg ts (acceptAll itemOf) [r1, r2, r3, r4, r5]).1.filter isBulk =
      [StoreOp.bulk [normalize1 (get_index_name strftime cfg ts) r1,
                     normalize1 (get_index_name strftime cfg ts) r2],
       StoreOp.bulk [normalize1 (get_index_name strftime cfg ts) r3,
                     normalize1 (get_index_name strftime cfg ts) r4],
       StoreOp.bulk [normalize1 (get_index_name strftime cfg ts) r5]] ∧
    (push strftime cfg ts (acceptAll itemOf) [r1, r2, r3, r4, r5]).2.1 = 5 ∧
    (push strftime cfg ts (acceptAll itemOf) [r1, r2, r3, r4, r5]).2.2.1 = [] := by
  simp only [push, collectNorm, List.map_cons, List.map_nil, h]
  refine ⟨?_, ?_, ?_⟩ <;>
    simp [chunks, acceptAll, List.filter_append, create_index_ops_no_bulk, isBulk,
      pushLoop_spec, classify_of_ok, List.filter_cons]

/-- C3 witness at a concrete collector configuration and record stream. -/
theorem five_records_three_batches_witness :
    (push (fun _ _ => "t") ⟨"m", "C", none, none, 2, "-latest"⟩ 0
        (acceptAll (fun _ => [])) [[("a", "1")], [("a", "2")], [("a", "3")],
          [("a", "4")], [("a", "5")]]).1.filter isBulk =
      [StoreOp.bulk [normalize1 (get_index_name (fun _ _ => "t")
            ⟨"m", "C", none, none, 2, "-latest"⟩ 0) [("a", "1")],
          normalize1 (get_index_name (fun _ _ => "t")
            ⟨"m", "C", none, none, 2, "-latest"⟩ 0) [("a", "2")]],
       StoreOp.bulk [normalize1 (get_index_name (fun _ _ => "t")
            ⟨"m", "C", none, none, 2, "-latest"⟩ 0) [("a", "3")],
          normalize1 (get_index_name (fun _ _ => "t")
            ⟨"m", "C", none, none, 2, "-latest"⟩ 0) [("a", "4")]],
       StoreOp.bulk [normalize1 (get_index_name (fun _ _ => "t")
            ⟨"m", "C", none, none, 2, "-latest"⟩ 0) [("a", "5")]]] ∧
    (push (fun _ _ => "t") ⟨"m", "C", none, none, 2, "-latest"⟩ 0
        (acceptAll (fun _ => [])) [[("a", "1")], [("a", "2")], [("a", "3")],
          [("a", "4")], [("a", "5")]]).2.1 = 5 ∧
    (push (fun _ _ => "t") ⟨"m", "C", none, none, 2, "-latest"⟩ 0
        (acceptAll (fun _ => [])) [[("a", "1")], [("a", "2")], [("a", "3")],
          [("a", "4")], [("a", "5")]]).2.2.1 = [] :=
  five_records_three_batches (fun _ _ => "t") ⟨"m", "C", none, none, 2, "-latest"⟩ 0
    (fun _ => []) [("a", "1")] [("a", "2")] [("a", "3")] [("a", "4")] [("a", "5")] rfl

/-- C4: the dry-run push issues no store operation of any kind, returns
exactly (N, []) for a producer yielding N records, and invokes the observer
exactly once per collected record, in production order, each time with
ok=true. -/
theorem fake_push_dry_run (strftime : String → Nat → String) (cfg : CollectorConfig)
    (ts : Nat) (produced : List Record) :
    (fake_push strftime cfg ts produced).1 = [] ∧
    (fake_push strftime cfg ts produced).2.1 = produced.length ∧
    (fake_push strftime cfg ts produced).2.2.1 = [] ∧
    (fake_push strftime cfg ts produced).2.2.2 =
      (collectNorm (get_index_name strftime cfg ts) produced).map
        (fun r => (true, r)) ∧
    (fake_push strftime cfg ts produced).2.2.2.length = produced.length := by
  refine ⟨?_, ?_, ?_, ?_, ?_⟩ <;>
    simp [fake_push, fakePushAux_spec, collectNorm]

/-- C5 counterexample: with the explicit index-name override set (to the empty
string) the raw index name is not the override value — Python `or` treats the
falsy override as unset and falls back to the lowercased qualified name. -/
theorem empty_override_ignored :
    (CollectorConfig.mk "pkg.mod" "Coll" (some "") none 500 "-latest").index_name =
      some "" ∧
    get_raw_index_name (CollectorConfig.mk "pkg.mod" "Coll" (some "") none 500
      "-latest") = "pkg.coll" ∧
    get_raw_index_name (CollectorConfig.mk "pkg.mod" "Coll" (some "") none 500
      "-latest") ≠ "" := by
  refine ⟨rfl, by decide, by decide⟩

/-- C5 (amended): the index name is a pure function of the collector config
and the timestamp: the raw name equals the explicit override when it is set
to a non-empty string, and is the lowercased qualified name when the override
is unset or empty; with no date pattern the index name equals the raw name at
every timestamp; with a date pattern P it is rawName ++ "-" ++ strftime P ts,
so two timestamps that format identically under P yield identical index names
and two that format differently yield different index names. -/
theorem index_name_resolution (strftime : String → Nat → String)
    (cfg : CollectorConfig) :
    (∀ s, cfg.index_name = some s → s ≠ "" → get_raw_index_name cfg = s) ∧
    (cfg.index_name = none → get_raw_index_name cfg = lowerString (name cfg)) ∧
    (cfg.index_name = some "" → get_raw_index_name cfg = lowerString (name cfg)) ∧
    (cfg.index_date_pattern = none →
      ∀ t, get_index_name strftime cfg t = get_raw_index_name cfg) ∧
    (∀ p, cfg.index_date_pattern = some p → ∀ t,
      get_index_name strftime cfg t = get_raw_index_name cfg ++ "-" ++ strftime p t) ∧
    (∀ p, cfg.index_date_pattern = some p → ∀ t1 t2,
      (get_index_name strftime cfg t1 = get_index_name strftime cfg t2 ↔
        strftime p t1 = strftime p t2)) := by
  refine ⟨?_, ?_, ?_, ?_, ?_, ?_⟩
  · intro s hs hne
    simp [get_raw_index_name, hs, hne]
  · intro hs
    simp [get_raw_index_name, hs]
  · intro hs
    simp [get_raw_index_name, hs]
  · intro hp t
    simp [get_index_name, hp]
  · intro p hp t
    simp [get_index_name, hp]
  · intro p hp t1 t2
    simp only [get_index_name, hp]
    constructor
    · intro h
      exact string_append_cancel _ _ _ h
    · intro h
      rw [h]

/-- C5 amended witness: a non-empty override is used verbatim, and with a
date pattern the index name carries the formatted-timestamp suffix. -/
theorem index_name_resolution_witness :
    get_raw_index_name (CollectorConfig.mk "pkg.mod" "Coll" (some "ix")
      (some "P") 500 "-latest") = "ix" ∧
    get_index_name (fun p _ => p) (CollectorConfig.mk "pkg.mod" "Coll"
        (some "ix") (some "P") 500 "-latest") 3 =
      get_raw_index_name (CollectorConfig.mk "pkg.mod" "Coll" (some "ix")
        (some "P") 500 "-latest") ++ "-" ++ "P" :=
  ⟨(index_name_resolution (fun p _ => p)
      (CollectorConfig.mk "pkg.mod" "Coll" (some "ix") (some "P") 500
        "-latest")).1 "ix" rfl (by decide),
   (index_name_resolution (fun p _ => p)
      (CollectorConfig.mk "pkg.mod" "Coll" (some "ix") (some "P") 500
        "-latest")).2.2.2.2.1 "P" rfl 3⟩

/-- C6: the normalizer maps the produced stream in order through the
per-record normalization; a record already carrying a destination-index field
keeps its value, one lacking it receives the computed index name, a record
lacking the document-category field receives the default "status" while one
carrying it keeps its value, and every other field of every record is left
unchanged. -/
theorem normalizer_fields (idx : String) (rs : List Record) (r : Record) :
    collectNorm idx rs = rs.map (normalize1 idx) ∧
    (hasKey r "_index" = true →
      lookupField (normalize1 idx r) "_index" = lookupField r "_index") ∧
    (hasKey r "_index" = false →
      lookupField (normalize1 idx r) "_index" = some idx) ∧
    (hasKey r "_type" = true →
      lookupField (normalize1 idx r) "_type" = lookupField r "_type") ∧
    (hasKey r "_type" = false →
      lookupField (normalize1 idx r) "_type" = some "status") ∧
    (∀ k, k ≠ "_index" → k ≠ "_type" →
      lookupField (normalize1 idx r) k = lookupField r k) := by
  have hne1 : ("_index" : String) ≠ "_type" := by decide
  have hne2 : ("_type" : String) ≠ "_index" := by decide
  refine ⟨rfl, ?_, ?_, ?_, ?_, ?_⟩
  · intro h
    by_cases ht : hasKey r "_type" = true
    · simp [normalize1, ht, h]
    · simp only [Bool.not_eq_true] at ht
      have h1 : hasKey (r ++ [("_type", "status")]) "_index" = true := by
        rw [hasKey_append]; simp [h]
      simp [normalize1, ht, h1, lookupField_append_of_ne r "_type" "status" "_index" hne1]
  · intro h
    by_cases ht : hasKey r "_type" = true
    · simp [normalize1, ht, h, lookupField_append_self r "_index" idx h]
    · simp only [Bool.not_eq_true] at ht
      have h1 : hasKey (r ++ [("_type", "status")]) "_index" = false := by
        rw [hasKey_append]; simp [h]
      simp only [normalize1, ht, Bool.false_eq_true, if_false, h1]
      exact lookupField_append_self (r ++ [("_type", "status")]) "_index" idx h1
  · intro ht
    by_cases hi : hasKey r "_index" = true
    · simp [normalize1, ht, hi]
    · simp only [Bool.not_eq_true] at hi
      simp [normalize1, ht, hi, lookupField_append_of_ne r "_index" idx "_type" hne2]
  · intro ht
    have hlook : lookupField (r ++ [("_type", "status")]) "_type" = some "status" :=
      lookupField_append_self r "_type" "status" ht
    by_cases hi : hasKey (r ++ [("_type", "status")]) "_index" = true
    · simp [normalize1, ht, hi, hlook]
    · simp only [Bool.not_eq_true] at hi
      simp only [normalize1, ht, Bool.false_eq_true, if_false, hi]
      rw [lookupField_append_of_ne (r ++ [("_type", "status")]) "_index" idx "_type" hne2]
      exact hlook
  · intro k hk1 hk2
    by_cases ht : hasKey r "_type" = true <;>
      by_cases hi : hasKey (if hasKey r "_type" then r
          else r ++ [("_type", "status")]) "_index" = true
    · rw [ht] at hi; simp only [if_true] at hi
      simp [normalize1, ht, hi]
    · rw [ht] at hi; simp only [if_true] at hi
      simp only [Bool.not_eq_true] at hi
      simp [normalize1, ht, hi, lookupField_append_of_ne r "_index" idx k hk1]
    · simp only [Bool.not_eq_true] at ht
      rw [if_neg (by simp [ht])] at hi
      simp [normalize1, ht, hi, lookupField_append_of_ne r "_type" "status" k hk2]
    · simp only [Bool.not_eq_true] at ht
      rw [if_neg (by simp [ht])] at hi
      simp only [Bool.not_eq_true] at hi
      simp only [normalize1, ht, Bool.false_eq_true, if_false, hi]
      rw [lookupField_append_of_ne (r ++ [("_type", "status")]) "_index" idx k hk1]
      exact lookupField_append_of_ne r "_type" "status" k hk2

/-- C6 witness on a concrete record carrying a destination index and a plain
field but no document-category field. -/
theorem normalizer_fields_witness :
    lookupField (normalize1 "ix" [("_index", "v"), ("x", "y")]) "_index" = some "v" ∧
    lookupField (normalize1 "ix" [("_index", "v"), ("x", "y")]) "_type" = some "status" ∧
    lookupField (normalize1 "ix" [("_index", "v"), ("x", "y")]) "x" = some "y" :=
  ⟨((normalizer_fields "ix" [] [("_index", "v"), ("x", "y")]).2.1
      (by decide)).trans (by decide),
   (normalizer_fields "ix" [] [("_index", "v"), ("x", "y")]).2.2.2.2.1 (by decide),
   ((normalizer_fields "ix" [] [("_index", "v"), ("x", "y")]).2.2.2.2.2 "x"
      (by decide) (by decide)).trans (by decide)⟩

/-- C8: the registry is an append-only ordered list: registering collector
types A then B over any prior registry state yields a listing equal to the
prior listing followed by the entries for A and B, in that registration
order, with no prior entry removed; and the listing after any registration is
never empty. -/
theorem registry_append_only (st : List (String × String × CollectorConfig))
    (A B X : CollectorConfig) :
    collectors (register (register st A) B) =
      collectors st ++ [registryEntry A, registryEntry B] ∧
    collectors (register st X) ≠ [] := by
  constructor
  · simp [collectors, register, List.append_assoc]
  · simp [collectors, register]

/-- C10: the qualified name (registry identity and basis of the default raw
index name) is built from only the first dotted component of the module path
plus the class name, so two collector classes with the same class name in
different submodules of one top-level package receive identical qualified
names, identical registry namespace and name components, and identical
default raw index names. -/
theorem same_toplevel_same_identity (m1 m2 cls : String) (pat : Option String)
    (cs : Nat) (suf : String) (_hne : m1 ≠ m2)
    (hm : firstModuleComponent m1 = firstModuleComponent m2) :
    name (CollectorConfig.mk m1 cls none pat cs suf) =
      firstModuleComponent m1 ++ "." ++ cls ∧
    name (CollectorConfig.mk m1 cls none pat cs suf) =
      name (CollectorConfig.mk m2 cls none pat cs suf) ∧
    (registryEntry (CollectorConfig.mk m1 cls none pat cs suf)).1 =
      (registryEntry (CollectorConfig.mk m2 cls none pat cs suf)).1 ∧
    (registryEntry (CollectorConfig.mk m1 cls none pat cs suf)).2.1 =
      (registryEntry (CollectorConfig.mk m2 cls none pat cs suf)).2.1 ∧
    get_raw_index_name (CollectorConfig.mk m1 cls none pat cs suf) =
      get_raw_index_name (CollectorConfig.mk m2 cls none pat cs suf) := by
  refine ⟨rfl, ?_, ?_, ?_, ?_⟩ <;>
    simp [name, registryEntry, get_raw_index_name, hm]

/-- C10 witness: two submodules of the same top-level package. -/
theorem same_toplevel_same_identity_witness :
    name (CollectorConfig.mk "pkg.sub1" "C" none none 500 "-latest") =
      firstModuleComponent "pkg.sub1" ++ "." ++ "C" ∧
    name (CollectorConfig.mk "pkg.sub1" "C" none none 500 "-latest") =
      name (CollectorConfig.mk "pkg.sub2" "C" none none 500 "-latest") ∧
    (registryEntry (CollectorConfig.mk "pkg.sub1" "C" none none 500 "-latest")).1 =
      (registryEntry (CollectorConfig.mk "pkg.sub2" "C" none none 500 "-latest")).1 ∧
    (registryEntry (CollectorConfig.mk "pkg.sub1" "C" none none 500 "-latest")).2.1 =
      (registryEntry (CollectorConfig.mk "pkg.sub2" "C" none none 500 "-latest")).2.1 ∧
    get_raw_index_name (CollectorConfig.mk "pkg.sub1" "C" none none 500 "-latest") =
      get_raw_index_name (CollectorConfig.mk "pkg.sub2" "C" none none 500 "-latest") :=
  same_toplevel_same_identity "pkg.sub1" "pkg.sub2" "C" none 500 "-latest"
    (by decide) (by decide)

end Olympus
